import Mathlib

/-!
Verification of the FloatChat migration scripts.

The source table of a migration is modelled as a `List α` of rows (the
source is assumed unchanged during the read, so the table is a fixed
list).  `SELECT ... LIMIT l OFFSET o` on that table returns the slice
`(table.drop o).take l`, exactly as the embedded source database does on
a stable table with a deterministic scan order.  Destination-side
transactions are modelled with an explicit committed/pending split:
`commit` publishes the pending rows, `rollback` (or closing the
connection without committing) discards them.
-/

namespace FloatChat

/-- Model of `SELECT {cols} FROM {table} LIMIT limit OFFSET offset`
(src/migrate_to_supabase.py line 135): the window of at most `limit`
rows starting at row index `offset`. -/
def pageSelect (table : List α) (limit offset : Nat) : List α :=
  (table.drop offset).take limit

/-- The paging loop of `migrate_data` (src/migrate_to_supabase.py lines
131-149), returning the list of batches it commits, in order.  `totalRows`
is the row count fetched once before the loop; each iteration re-queries
the table at the current offset, breaks on an empty batch, and advances
the offset by the batch size `B`. -/
def migrateLoop (table : List α) (B totalRows offset : Nat) : List (List α) :=
  if h : offset < totalRows then
    if hb : (pageSelect table B offset).isEmpty then []
    else pageSelect table B offset :: migrateLoop table B totalRows (offset + B)
  else []
termination_by totalRows - offset
decreasing_by
  have hb' : pageSelect table B offset ≠ [] := by simpa using hb
  have hB : B ≠ 0 := by
    intro h0
    exact hb' (by simp [pageSelect, h0])
  omega

/-- The same loop, tracking the `rows_inserted` accumulator of
`migrate_data` (src/migrate_to_supabase.py lines 132 and 145): it starts
at 0 and grows by the length of each committed batch. -/
def migrateLoopCount (table : List α) (B totalRows offset acc : Nat) : Nat :=
  if h : offset < totalRows then
    if hb : (pageSelect table B offset).isEmpty then acc
    else migrateLoopCount table B totalRows (offset + B)
      (acc + (pageSelect table B offset).length)
  else acc
termination_by totalRows - offset
decreasing_by
  have hb' : pageSelect table B offset ≠ [] := by simpa using hb
  have hB : B ≠ 0 := by
    intro h0
    exact hb' (by simp [pageSelect, h0])
  omega

/-- Step-indexed version of the paging loop: `none` means the iteration
budget `fuel` was exhausted before the loop finished.  Used to state
termination of the loop explicitly. -/
def migrateLoopFuel (fuel : Nat) (table : List α) (B totalRows offset : Nat) :
    Option (List (List α)) :=
  match fuel with
  | 0 => none
  | fuel + 1 =>
    if offset < totalRows then
      if (pageSelect table B offset).isEmpty then some []
      else (migrateLoopFuel fuel table B totalRows (offset + B)).map
        (pageSelect table B offset :: ·)
    else some []

/-- The paging loop when inserting the `k`-th batch (1-indexed) raises:
`idx` is the 1-based index of the batch about to be processed and `dest`
the rows committed so far.  When `idx = k` the `executemany` call fails
before `pg_conn.commit()` runs, so nothing of that batch (or any later
batch) is committed and the loop aborts with the exception. -/
def migrateLoopFailAt (table : List α) (B totalRows k offset idx : Nat)
    (dest : List α) : List α :=
  if h : offset < totalRows then
    if hb : (pageSelect table B offset).isEmpty then dest
    else if idx = k then dest
    else migrateLoopFailAt table B totalRows k (offset + B) (idx + 1)
      (dest ++ pageSelect table B offset)
  else dest
termination_by totalRows - offset
decreasing_by
  have hb' : pageSelect table B offset ≠ [] := by simpa using hb
  have hB : B ≠ 0 := by
    intro h0
    exact hb' (by simp [pageSelect, h0])
  omega

/-- The batches committed by `migrate_data` on `table` with batch size
`B`: `total_rows` is computed once at the start as the table's row count
(src/migrate_to_supabase.py lines 122-123) and the offset cursor starts
at 0. -/
def migrate_data_batches (table : List α) (B : Nat) : List (List α) :=
  migrateLoop table B table.length 0

/-- The value returned by `migrate_data` (src/migrate_to_supabase.py
line 152): the final `rows_inserted` counter. -/
def migrate_data (table : List α) (B : Nat) : Nat :=
  migrateLoopCount table B table.length 0 0

/-! ## Streaming bulk-copy loader

Model of the `copy_expert` + `commit` / `rollback` pattern of
src/import_csv_to_supabase.py (lines 39-98) and
src/bulk_import_supabase.py (lines 59-92).  A line of the input stream
is `some r` when it is a well-formed CSV row and `none` when it is
malformed or truncated. -/

/-- One destination table of the PostgreSQL connection: the rows already
committed, and the rows written in the current open transaction. -/
structure PgTable (ρ : Type) where
  committed : List ρ
  pending : List ρ
deriving DecidableEq

/-- Model of `COPY table FROM STDIN` over a stream of lines: well-formed
lines accumulate as uncommitted pending rows; the first malformed or
truncated line makes the whole statement raise (result `false`), leaving
whatever was streamed so far uncommitted. -/
def copyFrom (lines : List (Option ρ)) (s : PgTable ρ) : Bool × PgTable ρ :=
  match lines with
  | [] => (true, s)
  | some r :: rest => copyFrom rest ⟨s.committed, s.pending ++ [r]⟩
  | none :: _ => (false, s)

/-- `conn.commit()`: the pending rows of the open transaction become
durable. -/
def commitTx (s : PgTable ρ) : PgTable ρ :=
  ⟨s.committed ++ s.pending, []⟩

/-- `conn.rollback()` — or closing the connection without committing, as
src/bulk_import_supabase.py does on error — discards the pending rows. -/
def rollbackTx (s : PgTable ρ) : PgTable ρ :=
  ⟨s.committed, []⟩

/-- The streaming bulk-copy load of one table: `copy_expert` over the
whole stream, then `conn.commit()`; if the copy raises, the `except`
branch rolls back (src/import_csv_to_supabase.py line 92) or the
connection is closed without a commit (src/bulk_import_supabase.py), so
the pending rows are discarded either way. -/
def streamingLoad (lines : List (Option ρ)) (s : PgTable ρ) : PgTable ρ :=
  match copyFrom lines s with
  | (true, s') => commitTx s'
  | (false, s') => rollbackTx s'

/-! ## Migration Verifier

Model of `verify_migration` (src/migrate_to_supabase.py lines 154-175).
The row counts of the two stores are given as functions from table names
to counts; the per-table report lines the function prints are modelled
as a list of detail records returned alongside the `all_good` flag. -/

/-- One per-table report line of the verifier: the table name, the two
counts, and whether they matched. -/
structure TableDetail where
  table : String
  src_count : Nat
  dst_count : Nat
  is_match : Bool
deriving DecidableEq

/-- The verifier loop over a list of tables: `all_good` starts `true`
and is cleared on any mismatch; each table contributes one report
line. -/
def verifyTables (src dst : String → Nat) (tables : List String) :
    Bool × List TableDetail :=
  tables.foldl
    (fun acc t =>
      (acc.1 && decide (src t = dst t),
       acc.2 ++ [⟨t, src t, dst t, decide (src t = dst t)⟩]))
    (true, [])

/-- `verify_migration`: runs the verifier loop over the fixed table list
of src/migrate_to_supabase.py line 162. -/
def verify_migration (src dst : String → Nat) : Bool × List TableDetail :=
  verifyTables src dst ["argo_profiles", "argo_floats"]

/-! ## Schema Provisioner

Model of `create_tables` (src/migrate_to_supabase.py lines 65-113).
The destination schema is the list of its tables (name and row count)
and of its indexes (name and the table the index is on). -/

/-- The destination schema state. -/
structure DbSchema where
  tables : List (String × Nat)
  indexes : List (String × String)
deriving DecidableEq

/-- `DROP TABLE IF EXISTS t CASCADE`: removes the table, its rows, and
every index on it; never fails. -/
def dropTableCascade (t : String) (s : DbSchema) : DbSchema :=
  { tables := s.tables.filter (fun p => p.1 ≠ t),
    indexes := s.indexes.filter (fun p => p.2 ≠ t) }

/-- `CREATE TABLE t (...)`: fails if a relation named `t` exists,
otherwise adds an empty table. -/
def createTable (t : String) (s : DbSchema) : Except String DbSchema :=
  if s.tables.any (fun p => p.1 = t) then
    .error ("relation already exists: " ++ t)
  else
    .ok { s with tables := s.tables ++ [(t, 0)] }

/-- `CREATE INDEX i ON t (...)`: fails if an index named `i` exists,
otherwise records the index on `t`. -/
def createIndex (i t : String) (s : DbSchema) : Except String DbSchema :=
  if s.indexes.any (fun p => p.1 = i) then
    .error ("relation already exists: " ++ i)
  else
    .ok { s with indexes := s.indexes ++ [(i, t)] }

/-- Run a list of DDL statements sequentially, stopping at the first
failure with its error. -/
def runStmts (stmts : List (DbSchema → Except String DbSchema))
    (s : DbSchema) : Except String DbSchema :=
  match stmts with
  | [] => .ok s
  | f :: fs =>
    match f s with
    | .ok s' => runStmts fs s'
    | .error e => .error e

/-- The five index names created on argo_profiles
(src/migrate_to_supabase.py lines 102-106). -/
def profileIndexNames : List String :=
  ["idx_profiles_float_id", "idx_profiles_timestamp", "idx_profiles_lat",
   "idx_profiles_lon", "idx_profiles_location"]

/-- The five `CREATE INDEX ... ON argo_profiles` statements. -/
def indexStmts : List (DbSchema → Except String DbSchema) :=
  profileIndexNames.map (fun i => createIndex i "argo_profiles")

/-- The DDL statements executed by `create_tables`, in source order:
two cascading drops, two table creations, five index creations. -/
def createTablesStmts : List (DbSchema → Except String DbSchema) :=
  [fun s => .ok (dropTableCascade "argo_profiles" s),
   fun s => .ok (dropTableCascade "argo_floats" s),
   createTable "argo_floats",
   createTable "argo_profiles"] ++ indexStmts

/-- `create_tables` with its transaction semantics
(src/migrate_to_supabase.py lines 70-113): the DDL statements run in one
transaction; on success `pg_conn.commit()` publishes the new schema, on
failure `pg_conn.rollback()` restores the pre-run schema and the
underlying database error is re-raised.  Returns the committed schema
and the signalled error, if any. -/
def create_tables (s : DbSchema) : DbSchema × Option String :=
  match runStmts createTablesStmts s with
  | .ok s' => (s', none)
  | .error e => (s, some e)

/-! ### Derived views of the provisioner run -/

/-- The tables surviving the two cascading drops of `create_tables`. -/
def droppedTables (s : DbSchema) : List (String × Nat) :=
  (s.tables.filter (fun p => p.1 ≠ "argo_profiles")).filter
    (fun p => p.1 ≠ "argo_floats")

def droppedIndexes (s : DbSchema) : List (String × String) :=
  (s.indexes.filter (fun p => p.2 ≠ "argo_profiles")).filter
    (fun p => p.2 ≠ "argo_floats")

def freshIndexes : List (String × String) :=
  profileIndexNames.map (fun i => (i, "argo_profiles"))

def noIndexConflict (s : DbSchema) : Prop :=
  ∀ i ∈ profileIndexNames,
    ((droppedIndexes s).any fun p => p.1 = i) = false

instance (s : DbSchema) : Decidable (noIndexConflict s) := by
  unfold noIndexConflict
  infer_instance

def provisioned (s : DbSchema) : DbSchema :=
  ⟨droppedTables s ++ [("argo_floats", 0), ("argo_profiles", 0)],
   droppedIndexes s ++ freshIndexes⟩

/-! ## Run-level control flow

Models of `main` in src/migrate_to_supabase.py (lines 177-212) and
src/bulk_import_supabase.py (lines 132-161). -/

/-- Observable events of a migration run: the provisioning phase, one
committed batch of a named table, and the final verification phase. -/
inductive MEvent where
  | provision
  | batchCommit (table : String)
  | verifyRun
deriving DecidableEq

/-- The event trace of `main` in src/migrate_to_supabase.py: the body of
the `try` runs `create_tables`, then `migrate_data` on argo_floats, then
`migrate_data` on argo_profiles, then `verify_migration`; an exception
in any phase skips every later phase (the `except` handler follows the
whole sequence).  `floatsEv` and `profilesEv` are the batch-commit
events a load phase had produced by the time it returned or raised, and
the `Ok` flags say whether the phase completed without raising. -/
def mainTrace (provOk : Bool) (floatsEv : List MEvent) (floatsOk : Bool)
    (profilesEv : List MEvent) (profilesOk : Bool) : List MEvent :=
  MEvent.provision ::
    (if provOk then
      floatsEv ++
        (if floatsOk then
          profilesEv ++ (if profilesOk then [MEvent.verifyRun] else [])
        else [])
    else [])

/-- Connection lifecycle of `main` in src/migrate_to_supabase.py: the
body (provision, loads, verification) runs inside `try ... except ...
finally`, and the `finally` block closes both connections
unconditionally.  Returns whether the body succeeded, whether the
source connection was closed, and whether the destination connection
was closed. -/
def migrate_main_conns (provOk floatsOk profilesOk : Bool) :
    Bool × Bool × Bool :=
  (provOk && floatsOk && profilesOk, true, true)

/-- Connection lifecycle of `main` in src/bulk_import_supabase.py: the
steps run inside a bare `try ... except` with no `finally`;
`conn.close()` is a statement of the `try` body placed after the last
step, so it runs only when every step before it succeeded — the
`except` handler re-raises without closing.  Returns whether the run
succeeded and whether the connection was closed. -/
def bulk_main_conns (schemaOk floatsOk profilesOk : Bool) : Bool × Bool :=
  if schemaOk then
    if floatsOk then
      if profilesOk then (true, true)
      else (false, false)
    else (false, false)
  else (false, false)

/-! ## Lemmas about the paging loop -/

/-- Concatenating all batches of the paging loop recovers the source
table from the current offset on, when the total row count is the
table's length and the batch size is positive. -/
theorem migrateLoop_flatten (table : List α) (B : Nat) (hB : 1 ≤ B) (offset : Nat) :
    (migrateLoop table B table.length offset).flatten = table.drop offset := by
  rw [migrateLoop]
  split
  · rename_i h
    split
    · rename_i hb
      exfalso
      have hnil : (table.drop offset).take B = [] := by simpa [pageSelect] using hb
      rcases List.take_eq_nil_iff.mp hnil with h1 | h1
      · omega
      · rw [List.drop_eq_nil_iff] at h1
        omega
    · rename_i hb
      have ih := migrateLoop_flatten table B hB (offset + B)
      simp only [List.flatten_cons, ih, pageSelect]
      rw [← List.drop_drop]
      exact List.take_append_drop B (table.drop offset)
  · rename_i h
    have hle : table.length ≤ offset := by omega
    simp [List.drop_eq_nil_iff.mpr hle]
termination_by table.length - offset
decreasing_by omega

/-- The `rows_inserted` accumulator of the paging loop grows by exactly
the total length of the batches the loop commits. -/
theorem migrateLoopCount_eq (table : List α) (B totalRows offset acc : Nat) :
    migrateLoopCount table B totalRows offset acc =
      acc + ((migrateLoop table B totalRows offset).map List.length).sum := by
  rw [migrateLoopCount, migrateLoop]
  split
  · rename_i h
    split
    · simp
    · rename_i hb
      have hb' : pageSelect table B offset ≠ [] := by simpa using hb
      have hB : 1 ≤ B := by
        rcases Nat.eq_zero_or_pos B with h0 | h1
        · exact absurd (by simp [pageSelect, h0]) hb'
        · exact h1
      have ih := migrateLoopCount_eq table B totalRows (offset + B)
        (acc + (pageSelect table B offset).length)
      rw [ih]
      simp [Nat.add_assoc]
  · simp
termination_by totalRows - offset
decreasing_by omega

/-- A fuel budget strictly larger than the remaining row span is enough
for the step-indexed loop to finish and agree with the paging loop: the
loop terminates in at most `totalRows - offset + 1` iterations. -/
theorem migrateLoopFuel_eq (table : List α) (B totalRows : Nat) (hB : 1 ≤ B) :
    ∀ fuel offset, totalRows - offset < fuel →
      migrateLoopFuel fuel table B totalRows offset =
        some (migrateLoop table B totalRows offset) := by
  intro fuel
  induction fuel with
  | zero => intro offset hf; omega
  | succ fuel ih =>
    intro offset hf
    rw [migrateLoopFuel, migrateLoop]
    split
    · rename_i h
      split
      · rfl
      · rename_i hb
        have hb' : pageSelect table B offset ≠ [] := by simpa using hb
        rw [ih (offset + B) (by omega)]
        rfl
    · rfl

/-- A run whose batch insert raises at batch number `k` commits exactly
the batches numbered below `k` (the loop processes batches `idx`,
`idx + 1`, ... and `dest` holds what earlier iterations committed). -/
theorem migrateLoopFailAt_eq (table : List α) (B totalRows k offset idx : Nat)
    (dest : List α) (hik : idx ≤ k) :
    migrateLoopFailAt table B totalRows k offset idx dest =
      dest ++ ((migrateLoop table B totalRows offset).take (k - idx)).flatten := by
  rw [migrateLoopFailAt, migrateLoop]
  split
  · rename_i h
    split
    · simp
    · rename_i hb
      have hb' : pageSelect table B offset ≠ [] := by simpa using hb
      have hB : 1 ≤ B := by
        rcases Nat.eq_zero_or_pos B with h0 | h1
        · exact absurd (by simp [pageSelect, h0]) hb'
        · exact h1
      split
      · rename_i hik2
        subst hik2
        simp
      · rename_i hik2
        have ih := migrateLoopFailAt_eq table B totalRows k (offset + B) (idx + 1)
          (dest ++ pageSelect table B offset) (by omega)
        rw [ih]
        obtain ⟨m, hm⟩ : ∃ m, k - idx = m + 1 := ⟨k - idx - 1, by omega⟩
        rw [hm]
        have hm2 : k - (idx + 1) = m := by omega
        rw [hm2, List.take_succ_cons, List.flatten_cons, List.append_assoc]
  · simp
termination_by totalRows - offset
decreasing_by omega

/-! ## Lemmas about the streaming loader and the verifier -/

/-- `COPY` never commits anything by itself: the committed rows are
unchanged whether it succeeds or raises. -/
theorem copyFrom_committed (lines : List (Option ρ)) (s : PgTable ρ) :
    ((copyFrom lines s).2).committed = s.committed := by
  induction lines generalizing s with
  | nil => rfl
  | cons a rest ih =>
    cases a with
    | some r => rw [copyFrom]; exact ih ⟨s.committed, s.pending ++ [r]⟩
    | none => rfl

/-- A stream with no malformed line copies completely: every row ends up
pending, in order, and the statement reports success. -/
theorem copyFrom_ok (lines : List (Option ρ)) (s : PgTable ρ)
    (h : none ∉ lines) :
    copyFrom lines s = (true, ⟨s.committed, s.pending ++ lines.reduceOption⟩) := by
  induction lines generalizing s with
  | nil => simp [copyFrom]
  | cons a rest ih =>
    cases a with
    | some r =>
      rw [copyFrom, ih ⟨s.committed, s.pending ++ [r]⟩ (by simp_all)]
      simp
    | none => simp at h

/-- A stream containing a malformed line makes the copy raise. -/
theorem copyFrom_fails (lines : List (Option ρ)) (s : PgTable ρ)
    (h : none ∈ lines) : (copyFrom lines s).1 = false := by
  induction lines generalizing s with
  | nil => simp at h
  | cons a rest ih =>
    cases a with
    | some r =>
      rw [copyFrom]
      exact ih ⟨s.committed, s.pending ++ [r]⟩ (by simp_all)
    | none => rfl

/-- A fully well-formed stream is committed wholesale. -/
theorem streamingLoad_ok (lines : List (Option ρ)) (s : PgTable ρ)
    (h : none ∉ lines) :
    streamingLoad lines s =
      ⟨s.committed ++ (s.pending ++ lines.reduceOption), []⟩ := by
  rw [streamingLoad, copyFrom_ok lines s h]
  rfl

/-- A stream that raises partway leaves the committed rows untouched. -/
theorem streamingLoad_err (lines : List (Option ρ)) (s : PgTable ρ)
    (h : none ∈ lines) : streamingLoad lines s = ⟨s.committed, []⟩ := by
  have h1 := copyFrom_fails lines s h
  have h2 := copyFrom_committed lines s
  rcases hc : copyFrom lines s with ⟨b, s'⟩
  rw [hc] at h1 h2
  simp only at h1 h2
  subst h1
  rw [streamingLoad, hc]
  show rollbackTx s' = _
  rw [rollbackTx, h2]

/-- Unrolling the verifier fold from an arbitrary accumulator. -/
theorem verifyTables_go (src dst : String → Nat) (tables : List String)
    (b : Bool) (ds : List TableDetail) :
    tables.foldl
      (fun acc t =>
        (acc.1 && decide (src t = dst t),
         acc.2 ++ [⟨t, src t, dst t, decide (src t = dst t)⟩]))
      (b, ds) =
    (b && tables.all (fun t => decide (src t = dst t)),
     ds ++ tables.map fun t => ⟨t, src t, dst t, decide (src t = dst t)⟩) := by
  induction tables generalizing b ds with
  | nil => simp
  | cons t ts ih =>
    rw [List.foldl_cons, ih]
    simp [Bool.and_assoc]

/-- The verifier returns the conjunction of the per-table count checks
and one detail record per table. -/
theorem verifyTables_eq (src dst : String → Nat) (tables : List String) :
    verifyTables src dst tables =
      (tables.all (fun t => decide (src t = dst t)),
       tables.map fun t => ⟨t, src t, dst t, decide (src t = dst t)⟩) := by
  rw [verifyTables, verifyTables_go]
  simp

/-! ## Lemmas about the schema provisioner -/

theorem any_fst_filter_ne (l : List (String × Nat)) (t : String) :
    ((l.filter fun p => p.1 ≠ t).any fun p => p.1 = t) = false := by
  simp only [List.any_eq_false]
  intro x hx
  have := (List.mem_filter.mp hx).2
  simpa using this

theorem any_fst_filter_filter (l : List (String × Nat)) (t : String)
    (q : String × Nat → Bool) :
    (((l.filter fun p => p.1 ≠ t).filter q).any fun p => p.1 = t) = false := by
  simp only [List.any_eq_false]
  intro x hx
  have := (List.mem_filter.mp (List.mem_filter.mp hx).1).2
  simpa using this

theorem runStmts_append (xs ys : List (DbSchema → Except String DbSchema))
    (s : DbSchema) :
    runStmts (xs ++ ys) s =
      match runStmts xs s with
      | .ok s' => runStmts ys s'
      | .error e => .error e := by
  induction xs generalizing s with
  | nil => simp [runStmts]
  | cons f fs ih =>
    rw [List.cons_append, runStmts]
    cases hf : f s with
    | ok s' => rw [runStmts, hf]; exact ih s'
    | error e => rw [runStmts, hf]

theorem runStmts_cons_ok (f : DbSchema → Except String DbSchema)
    (fs : List (DbSchema → Except String DbSchema)) (s s' : DbSchema)
    (h : f s = .ok s') : runStmts (f :: fs) s = runStmts fs s' := by
  rw [runStmts, h]

theorem runStmts_cons_error (f : DbSchema → Except String DbSchema)
    (fs : List (DbSchema → Except String DbSchema)) (s : DbSchema) (e : String)
    (h : f s = .error e) : runStmts (f :: fs) s = .error e := by
  rw [runStmts, h]

theorem createTable_floats_ok (s : DbSchema) :
    createTable "argo_floats"
        (dropTableCascade "argo_floats" (dropTableCascade "argo_profiles" s)) =
      .ok ⟨droppedTables s ++ [("argo_floats", 0)], droppedIndexes s⟩ := by
  have hcond : ¬((dropTableCascade "argo_floats"
      (dropTableCascade "argo_profiles" s)).tables.any fun p =>
        p.1 = "argo_floats") = true := by
    rw [show (dropTableCascade "argo_floats"
        (dropTableCascade "argo_profiles" s)).tables = droppedTables s from rfl]
    rw [droppedTables, any_fst_filter_ne]
    simp
  rw [createTable, if_neg hcond]
  rfl

theorem createTable_profiles_ok (s : DbSchema) :
    createTable "argo_profiles"
        (⟨droppedTables s ++ [("argo_floats", 0)], droppedIndexes s⟩ : DbSchema) =
      .ok ⟨(droppedTables s ++ [("argo_floats", 0)]) ++ [("argo_profiles", 0)],
        droppedIndexes s⟩ := by
  have hcond : ¬((⟨droppedTables s ++ [("argo_floats", 0)], droppedIndexes s⟩ :
      DbSchema).tables.any fun p => p.1 = "argo_profiles") = true := by
    rw [show (⟨droppedTables s ++ [("argo_floats", 0)], droppedIndexes s⟩ :
        DbSchema).tables = droppedTables s ++ [("argo_floats", 0)] from rfl]
    rw [List.any_append]
    rw [droppedTables, any_fst_filter_filter]
    simp
  rw [createTable, if_neg hcond]

theorem runStmts_prefixStmts (s : DbSchema) :
    runStmts createTablesStmts s =
      runStmts indexStmts
        ⟨droppedTables s ++ [("argo_floats", 0), ("argo_profiles", 0)],
          droppedIndexes s⟩ := by
  have hsplit :
      createTablesStmts =
        [fun s => .ok (dropTableCascade "argo_profiles" s),
         fun s => .ok (dropTableCascade "argo_floats" s),
         createTable "argo_floats",
         createTable "argo_profiles"] ++ indexStmts := rfl
  rw [hsplit, runStmts_append]
  rw [runStmts_cons_ok (fun s => .ok (dropTableCascade "argo_profiles" s)) _ s
    (dropTableCascade "argo_profiles" s) rfl]
  rw [runStmts_cons_ok (fun s => .ok (dropTableCascade "argo_floats" s)) _ _
    (dropTableCascade "argo_floats" (dropTableCascade "argo_profiles" s)) rfl]
  rw [runStmts_cons_ok _ _ _ _ (createTable_floats_ok s)]
  rw [runStmts_cons_ok _ _ _ _ (createTable_profiles_ok s)]
  rw [List.append_assoc]
  rfl

theorem runStmts_indexStmts_ok : ∀ (names : List String)
    (Tb : List (String × Nat)) (E : List (String × String)), names.Nodup →
    (∀ i ∈ names, (E.any fun p => p.1 = i) = false) →
    runStmts (names.map fun i => createIndex i "argo_profiles") ⟨Tb, E⟩ =
      .ok ⟨Tb, E ++ names.map fun i => (i, "argo_profiles")⟩ := by
  intro names
  induction names with
  | nil => intro Tb E _ _; simp [runStmts]
  | cons a rest ih =>
    intro Tb E hd hE
    rw [List.map_cons]
    have hstep : createIndex a "argo_profiles" ⟨Tb, E⟩ =
        .ok ⟨Tb, E ++ [(a, "argo_profiles")]⟩ := by
      rw [createIndex, if_neg]
      rw [show (⟨Tb, E⟩ : DbSchema).indexes = E from rfl,
        hE a (List.mem_cons_self a rest)]
      simp
    rw [runStmts_cons_ok _ _ _ _ hstep]
    have hE2 : ∀ i ∈ rest, ((E ++ [(a, "argo_profiles")]).any
        fun p => p.1 = i) = false := by
      intro i hi
      rw [List.any_append, hE i (List.mem_cons_of_mem a hi)]
      have hne : a ≠ i := by
        intro hai
        exact (List.nodup_cons.mp hd).1 (hai ▸ hi)
      simp [hne]
    rw [ih Tb (E ++ [(a, "argo_profiles")]) (List.nodup_cons.mp hd).2 hE2]
    simp

theorem runStmts_indexStmts_ok_inv : ∀ (names : List String)
    (Tb : List (String × Nat)) (E : List (String × String)) (s' : DbSchema),
    runStmts (names.map fun i => createIndex i "argo_profiles") ⟨Tb, E⟩ = .ok s' →
    (∀ i ∈ names, (E.any fun p => p.1 = i) = false) ∧
      s' = ⟨Tb, E ++ names.map fun i => (i, "argo_profiles")⟩ := by
  intro names
  induction names with
  | nil =>
    intro Tb E s' h
    rw [List.map_nil, runStmts] at h
    refine ⟨by simp, ?_⟩
    cases h
    simp
  | cons a rest ih =>
    intro Tb E s' h
    rw [List.map_cons] at h
    cases hc : (E.any fun p => p.1 = a) with
    | true =>
      have hstep : createIndex a "argo_profiles" ⟨Tb, E⟩ =
          .error ("relation already exists: " ++ a) := by
        simp [createIndex, hc]
      rw [runStmts_cons_error _ _ _ ("relation already exists: " ++ a) hstep] at h
      exact absurd h (by simp)
    | false =>
      have hcf : (E.any fun p => p.1 = a) = false := hc
      have hstep : createIndex a "argo_profiles" ⟨Tb, E⟩ =
          .ok ⟨Tb, E ++ [(a, "argo_profiles")]⟩ := by
        simp [createIndex, hc]
      rw [runStmts_cons_ok _ _ _ _ hstep] at h
      obtain ⟨hrest, hs⟩ := ih Tb (E ++ [(a, "argo_profiles")]) s' h
      constructor
      · intro i hi
        rcases List.mem_cons.mp hi with rfl | hi'
        · exact hcf
        · have hai := hrest i hi'
          rw [List.any_append] at hai
          exact (Bool.or_eq_false_iff.mp hai).1
      · rw [hs]
        simp

theorem create_tables_ok_iff (s s' : DbSchema) :
    create_tables s = (s', none) ↔ noIndexConflict s ∧ s' = provisioned s := by
  constructor
  · intro h
    have hrun : runStmts createTablesStmts s = .ok s' := by
      unfold create_tables at h
      cases hr : runStmts createTablesStmts s with
      | ok t =>
        rw [hr] at h
        simp only [Prod.mk.injEq] at h
        rw [h.1]
      | error e =>
        rw [hr] at h
        simp at h
    rw [runStmts_prefixStmts,
      show indexStmts = profileIndexNames.map
        (fun i => createIndex i "argo_profiles") from rfl] at hrun
    obtain ⟨hE, hs⟩ := runStmts_indexStmts_ok_inv profileIndexNames _ _ _ hrun
    exact ⟨hE, by rw [hs]; rfl⟩
  · rintro ⟨hc, rfl⟩
    unfold create_tables
    rw [runStmts_prefixStmts,
      show indexStmts = profileIndexNames.map
        (fun i => createIndex i "argo_profiles") from rfl,
      runStmts_indexStmts_ok profileIndexNames _ _ (by decide) hc]
    rfl

theorem droppedTables_provisioned (s : DbSchema) :
    droppedTables (provisioned s) = droppedTables s := by
  have h1 : ∀ x ∈ droppedTables s, (decide (x.1 ≠ "argo_profiles")) = true := by
    intro x hx
    exact (List.mem_filter.mp (List.mem_filter.mp hx).1).2
  have h2 : ∀ x ∈ droppedTables s, (decide (x.1 ≠ "argo_floats")) = true := by
    intro x hx
    exact (List.mem_filter.mp hx).2
  show (((droppedTables s ++ [("argo_floats", 0), ("argo_profiles", 0)]).filter
        (fun p : String × Nat => p.1 ≠ "argo_profiles")).filter
      (fun p : String × Nat => p.1 ≠ "argo_floats")) =
    droppedTables s
  rw [List.filter_append, List.filter_eq_self.mpr h1]
  rw [show (([("argo_floats", 0), ("argo_profiles", 0)] :
      List (String × Nat)).filter
      (fun p => (p.1 ≠ "argo_profiles" : Bool))) = [("argo_floats", 0)] by rfl]
  rw [List.filter_append, List.filter_eq_self.mpr h2]
  rw [show (([("argo_floats", 0)] : List (String × Nat)).filter
      (fun p => (p.1 ≠ "argo_floats" : Bool))) = [] by rfl]
  simp

theorem droppedIndexes_provisioned (s : DbSchema) :
    droppedIndexes (provisioned s) = droppedIndexes s := by
  have h1 : ∀ x ∈ droppedIndexes s, (decide (x.2 ≠ "argo_profiles")) = true := by
    intro x hx
    exact (List.mem_filter.mp (List.mem_filter.mp hx).1).2
  have h2 : ∀ x ∈ droppedIndexes s, (decide (x.2 ≠ "argo_floats")) = true := by
    intro x hx
    exact (List.mem_filter.mp hx).2
  show (((droppedIndexes s ++ freshIndexes).filter
        (fun p : String × String => p.2 ≠ "argo_profiles")).filter
      (fun p : String × String => p.2 ≠ "argo_floats")) =
    droppedIndexes s
  rw [List.filter_append, List.filter_eq_self.mpr h1]
  rw [show (freshIndexes.filter (fun p => (p.2 ≠ "argo_profiles" : Bool))) = []
    by rfl]
  rw [List.append_nil, List.filter_eq_self.mpr h2]

theorem provisioned_idem (s : DbSchema) :
    provisioned (provisioned s) = provisioned s := by
  show (⟨droppedTables (provisioned s) ++ _, droppedIndexes (provisioned s) ++ _⟩ :
    DbSchema) = _
  rw [droppedTables_provisioned, droppedIndexes_provisioned]
  rfl

theorem noIndexConflict_provisioned (s : DbSchema) (hc : noIndexConflict s) :
    noIndexConflict (provisioned s) := by
  intro i hi
  rw [droppedIndexes_provisioned]
  exact hc i hi

/-! ## The claims -/

/-- C1: For every source table T and every batch size B ≥ 1, with the
source unchanged during the read, the concatenation of all batches
produced by the batched paging loop of migrate_data (offset cursor
increased by B per step, total row count fixed once at start) is exactly
the rows of T, each exactly once: no row duplicated and none omitted. -/
theorem claim_c1_partition (table : List α) (B : Nat) (hB : 1 ≤ B) :
    (migrate_data_batches table B).flatten = table := by
  rw [migrate_data_batches, migrateLoop_flatten table B hB 0, List.drop_zero]

theorem claim_c1_partition_witness :
    (migrate_data_batches [10, 20, 30, 40, 50] 2).flatten =
      [10, 20, 30, 40, 50] :=
  claim_c1_partition [10, 20, 30, 40, 50] 2 (by decide)

/-- C2: If the batched-insert load fails while processing batch k
(1-indexed), the destination contains exactly the rows of batches
1..k-1 — the flattening of the first k-1 batches — and no row of batch k
or any later batch. -/
theorem claim_c2_batch_durability (table : List α) (B k : Nat) (hk : 1 ≤ k) :
    migrateLoopFailAt table B table.length k 0 1 [] =
      ((migrate_data_batches table B).take (k - 1)).flatten := by
  rw [migrateLoopFailAt_eq table B table.length k 0 1 [] hk,
    migrate_data_batches]
  simp

theorem claim_c2_batch_durability_witness :
    migrateLoopFailAt [10, 20, 30, 40, 50] 2 5 3 0 1 [] =
      ((migrate_data_batches [10, 20, 30, 40, 50] 2).take 2).flatten := by
  have h := claim_c2_batch_durability [10, 20, 30, 40, 50] 2 3 (by decide)
  simpa using h

/-- C3: The streaming bulk-copy load is atomic: from a fresh destination
table, a stream with no malformed line commits exactly its rows, and a
stream that is truncated or malformed partway through leaves the
destination with zero committed rows — never a partial count. -/
theorem claim_c3_streaming_atomicity (lines : List (Option ρ)) :
    (none ∉ lines →
      (streamingLoad lines ⟨[], []⟩).committed = lines.reduceOption) ∧
    (none ∈ lines → (streamingLoad lines ⟨[], []⟩).committed = []) := by
  constructor
  · intro h
    rw [streamingLoad_ok lines ⟨[], []⟩ h]
    rfl
  · intro h
    rw [streamingLoad_err lines ⟨[], []⟩ h]

theorem claim_c3_streaming_atomicity_witness :
    (streamingLoad [some 1, some 2] (⟨[], []⟩ : PgTable Nat)).committed =
        [1, 2] ∧
      (streamingLoad [some 1, none] (⟨[], []⟩ : PgTable Nat)).committed = [] :=
  ⟨by
    have h := (claim_c3_streaming_atomicity [some 1, some 2]).1 (by decide)
    simpa using h,
   (claim_c3_streaming_atomicity [some 1, none]).2 (by decide)⟩

/-- C4: The verifier reports per-table match exactly when the source
count equals the destination count, its overall boolean is true exactly
when every table matches, and each per-table detail record carries the
table name, the source count, the destination count, and the match
flag. -/
theorem claim_c4_verifier (src dst : String → Nat) (tables : List String) :
    ((verifyTables src dst tables).1 = true ↔ ∀ t ∈ tables, src t = dst t) ∧
    (verifyTables src dst tables).2 =
      (tables.map fun t => ⟨t, src t, dst t, decide (src t = dst t)⟩) ∧
    (∀ d ∈ (verifyTables src dst tables).2,
      (d.is_match = true ↔ d.src_count = d.dst_count)) ∧
    verify_migration src dst = verifyTables src dst
      ["argo_profiles", "argo_floats"] := by
  rw [verifyTables_eq]
  refine ⟨by simp, rfl, ?_, rfl⟩
  intro d hd
  simp only [List.mem_map] at hd
  obtain ⟨t, ht, rfl⟩ := hd
  simp

theorem claim_c4_verifier_witness :
    (verifyTables (fun _ => 2072) (fun _ => 2072) ["argo_floats"]).1 = true ∧
    (verifyTables (fun _ => 1300000) (fun _ => 1299998)
        ["argo_profiles"]).1 = false ∧
    (verifyTables (fun _ => 1300000) (fun _ => 1299998) ["argo_profiles"]).2 =
      [⟨"argo_profiles", 1300000, 1299998, false⟩] := by
  refine ⟨?_, ?_, ?_⟩
  · exact (claim_c4_verifier (fun _ => 2072) (fun _ => 2072)
      ["argo_floats"]).1.mpr (by intro t ht; rfl)
  · have h := (claim_c4_verifier (fun _ => 1300000) (fun _ => 1299998)
      ["argo_profiles"]).1
    refine Bool.eq_false_iff.mpr (fun htr => ?_)
    have := h.mp htr "argo_profiles" (by simp)
    omega
  · rw [(claim_c4_verifier (fun _ => 1300000) (fun _ => 1299998)
      ["argo_profiles"]).2.1]
    rfl

/-- C5: If any DDL statement fails during schema provisioning,
create_tables rolls back the transaction — the committed schema is
exactly the pre-run schema, with no table half-created — and signals the
underlying database error. -/
theorem claim_c5_schema_rollback (s : DbSchema) (e : String)
    (h : runStmts createTablesStmts s = .error e) :
    create_tables s = (s, some e) := by
  unfold create_tables
  rw [h]

theorem claim_c5_schema_rollback_witness :
    create_tables ⟨[("other", 5)], [("idx_profiles_lat", "other")]⟩ =
      (⟨[("other", 5)], [("idx_profiles_lat", "other")]⟩,
       some "relation already exists: idx_profiles_lat") :=
  claim_c5_schema_rollback ⟨[("other", 5)], [("idx_profiles_lat", "other")]⟩
    "relation already exists: idx_profiles_lat" rfl

/-- C6: Provisioning is idempotent: when a run of create_tables
succeeds, running it again from the resulting schema succeeds with the
very same schema, which contains the two empty tables and the five
indexes on argo_profiles. -/
theorem claim_c6_idempotent (s0 s1 : DbSchema)
    (h : create_tables s0 = (s1, none)) :
    create_tables s1 = (s1, none) ∧
    ("argo_floats", 0) ∈ s1.tables ∧ ("argo_profiles", 0) ∈ s1.tables ∧
    ∀ i ∈ profileIndexNames, (i, "argo_profiles") ∈ s1.indexes := by
  obtain ⟨hc, rfl⟩ := (create_tables_ok_iff s0 s1).mp h
  refine ⟨?_, ?_, ?_, ?_⟩
  · rw [create_tables_ok_iff]
    exact ⟨noIndexConflict_provisioned s0 hc, (provisioned_idem s0).symm⟩
  · show ("argo_floats", 0) ∈
      droppedTables s0 ++ [("argo_floats", 0), ("argo_profiles", 0)]
    simp
  · show ("argo_profiles", 0) ∈
      droppedTables s0 ++ [("argo_floats", 0), ("argo_profiles", 0)]
    simp
  · intro i hi
    show (i, "argo_profiles") ∈ droppedIndexes s0 ++ freshIndexes
    rw [List.mem_append]
    right
    exact List.mem_map.mpr ⟨i, hi, rfl⟩

theorem claim_c6_idempotent_witness :
    create_tables
        ⟨[("argo_floats", 0), ("argo_profiles", 0)],
         [("idx_profiles_float_id", "argo_profiles"),
          ("idx_profiles_timestamp", "argo_profiles"),
          ("idx_profiles_lat", "argo_profiles"),
          ("idx_profiles_lon", "argo_profiles"),
          ("idx_profiles_location", "argo_profiles")]⟩ =
      (⟨[("argo_floats", 0), ("argo_profiles", 0)],
        [("idx_profiles_float_id", "argo_profiles"),
         ("idx_profiles_timestamp", "argo_profiles"),
         ("idx_profiles_lat", "argo_profiles"),
         ("idx_profiles_lon", "argo_profiles"),
         ("idx_profiles_location", "argo_profiles")]⟩, none) ∧
    ("argo_floats", 0) ∈
      (⟨[("argo_floats", 0), ("argo_profiles", 0)],
        [("idx_profiles_float_id", "argo_profiles"),
         ("idx_profiles_timestamp", "argo_profiles"),
         ("idx_profiles_lat", "argo_profiles"),
         ("idx_profiles_lon", "argo_profiles"),
         ("idx_profiles_location", "argo_profiles")]⟩ : DbSchema).tables ∧
    ("argo_profiles", 0) ∈
      (⟨[("argo_floats", 0), ("argo_profiles", 0)],
        [("idx_profiles_float_id", "argo_profiles"),
         ("idx_profiles_timestamp", "argo_profiles"),
         ("idx_profiles_lat", "argo_profiles"),
         ("idx_profiles_lon", "argo_profiles"),
         ("idx_profiles_location", "argo_profiles")]⟩ : DbSchema).tables ∧
    ∀ i ∈ profileIndexNames, (i, "argo_profiles") ∈
      (⟨[("argo_floats", 0), ("argo_profiles", 0)],
        [("idx_profiles_float_id", "argo_profiles"),
         ("idx_profiles_timestamp", "argo_profiles"),
         ("idx_profiles_lat", "argo_profiles"),
         ("idx_profiles_lon", "argo_profiles"),
         ("idx_profiles_location", "argo_profiles")]⟩ : DbSchema).indexes :=
  claim_c6_idempotent ⟨[], []⟩ _ rfl

/-- C7: Whenever a page query returns an empty batch the paging loop
terminates immediately, even when the offset has not reached the total
row count fixed at start; and the final non-empty batch may be shorter
than the batch size (here: 3 rows with batch size 2 end in a batch of
length 1). -/
theorem claim_c7_empty_batch_stops (table : List α) (B totalRows offset : Nat)
    (h1 : offset < totalRows) (h2 : pageSelect table B offset = []) :
    migrateLoop table B totalRows offset = [] ∧
      migrate_data_batches [1, 2, 3] 2 = [[1, 2], [3]] := by
  constructor
  · rw [migrateLoop, dif_pos h1,
      dif_pos (show (pageSelect table B offset).isEmpty = true by simp [h2])]
  · show migrateLoop [1, 2, 3] 2 3 0 = [[1, 2], [3]]
    rw [migrateLoop]
    norm_num [pageSelect]
    rw [migrateLoop]
    norm_num [pageSelect]
    rw [migrateLoop]
    norm_num

theorem claim_c7_empty_batch_stops_witness :
    migrateLoop [1] 1 5 3 = [] ∧
      migrate_data_batches [1, 2, 3] 2 = [[1, 2], [3]] :=
  claim_c7_empty_batch_stops [1] 1 5 3 (by decide) (by decide)

/-- C8 (amended): in migrate_to_supabase.main the finally block closes
both connections on every exit path; in bulk_import_supabase.main the
connection is closed exactly on the successful path — an error in any
step propagates without closing it. -/
theorem claim_c8_connections (provOk floatsOk profilesOk : Bool)
    (schemaOk bFloatsOk bProfilesOk : Bool) :
    (migrate_main_conns provOk floatsOk profilesOk).2.1 = true ∧
    (migrate_main_conns provOk floatsOk profilesOk).2.2 = true ∧
    ((bulk_main_conns schemaOk bFloatsOk bProfilesOk).2 = true ↔
      (bulk_main_conns schemaOk bFloatsOk bProfilesOk).1 = true) := by
  refine ⟨rfl, rfl, ?_⟩
  cases schemaOk <;> cases bFloatsOk <;> cases bProfilesOk <;>
    simp [bulk_main_conns]

/-- C8 (counterexample to the claim as stated): when the schema step of
bulk_import_supabase.main raises, the run aborts with an error and the
destination connection is not closed — so it is false that both scripts
close their connections on every exit path. -/
theorem claim_c8_counterexample :
    (bulk_main_conns false true true).1 = false ∧
    (bulk_main_conns false true true).2 = false := by
  decide

/-- C9: Every run of migrate_to_supabase.main orders its phases as
provision, then the argo_floats load, then the argo_profiles load, then
one final verification: the trace starts with the single provision
event, every argo_profiles batch commit comes after the whole
argo_floats block, profiles batches occur only once the floats load
completed, and the verify event occurs exactly at the end, exactly when
all phases succeeded. -/
theorem claim_c9_phase_order (provOk floatsOk profilesOk : Bool)
    (floatsEv profilesEv : List MEvent)
    (hf : ∀ e ∈ floatsEv, e = MEvent.batchCommit "argo_floats")
    (hp : ∀ e ∈ profilesEv, e = MEvent.batchCommit "argo_profiles") :
    ∃ F P V, mainTrace provOk floatsEv floatsOk profilesEv profilesOk =
        MEvent.provision :: (F ++ (P ++ V)) ∧
      (∀ e ∈ F, e = MEvent.batchCommit "argo_floats") ∧
      (∀ e ∈ P, e = MEvent.batchCommit "argo_profiles") ∧
      (∀ e ∈ F ++ (P ++ V), e ≠ MEvent.provision) ∧
      (V = [] ∨ V = [MEvent.verifyRun]) ∧
      (P ≠ [] → floatsOk = true ∧ F = floatsEv) ∧
      (provOk = true ∧ floatsOk = true ∧ profilesOk = true ↔
        V = [MEvent.verifyRun]) := by
  have hfn : ∀ e ∈ floatsEv, e ≠ MEvent.provision := by
    intro e he
    rw [hf e he]
    simp
  have hpn : ∀ e ∈ profilesEv, e ≠ MEvent.provision := by
    intro e he
    rw [hp e he]
    simp
  cases provOk with
  | false =>
    refine ⟨[], [], [], by simp [mainTrace], by simp, by simp, by simp, .inl rfl,
      by simp, by simp⟩
  | true =>
    cases floatsOk with
    | false =>
      refine ⟨floatsEv, [], [], by simp [mainTrace], hf, by simp, ?_, .inl rfl,
        by simp, by simp⟩
      simpa using hfn
    | true =>
      cases profilesOk with
      | false =>
        refine ⟨floatsEv, profilesEv, [], by simp [mainTrace], hf, hp, ?_,
          .inl rfl, fun _ => ⟨rfl, rfl⟩, by simp⟩
        intro e he
        rcases List.mem_append.mp he with h | h
        · exact hfn e h
        · rcases List.mem_append.mp h with h | h
          · exact hpn e h
          · simp at h
      | true =>
        refine ⟨floatsEv, profilesEv, [MEvent.verifyRun], by simp [mainTrace],
          hf, hp, ?_, .inr rfl, fun _ => ⟨rfl, rfl⟩, by simp⟩
        intro e he
        rcases List.mem_append.mp he with h | h
        · exact hfn e h
        · rcases List.mem_append.mp h with h | h
          · exact hpn e h
          · simp at h
            rw [h]
            simp

theorem claim_c9_phase_order_witness :
    ∃ F P V, mainTrace true [MEvent.batchCommit "argo_floats"] true
        [MEvent.batchCommit "argo_profiles"] true =
        MEvent.provision :: (F ++ (P ++ V)) ∧
      (∀ e ∈ F, e = MEvent.batchCommit "argo_floats") ∧
      (∀ e ∈ P, e = MEvent.batchCommit "argo_profiles") ∧
      (∀ e ∈ F ++ (P ++ V), e ≠ MEvent.provision) ∧
      (V = [] ∨ V = [MEvent.verifyRun]) ∧
      (P ≠ [] → true = true ∧ F = [MEvent.batchCommit "argo_floats"]) ∧
      (true = true ∧ true = true ∧ true = true ↔
        V = [MEvent.verifyRun]) :=
  claim_c9_phase_order true true true [MEvent.batchCommit "argo_floats"]
    [MEvent.batchCommit "argo_profiles"] (by decide) (by decide)

/-- C10: For every batch size ≥ 1 the paging loop terminates — a fuel
budget of totalRows + 1 iterations is always enough — and the returned
rows_inserted equals the sum of the lengths of all processed batches,
both in general and for migrate_data itself. -/
theorem claim_c10_termination_count (table : List α) (B totalRows : Nat)
    (hB : 1 ≤ B) :
    migrateLoopFuel (totalRows + 1) table B totalRows 0 =
      some (migrateLoop table B totalRows 0) ∧
    migrateLoopCount table B totalRows 0 0 =
      ((migrateLoop table B totalRows 0).map List.length).sum ∧
    migrate_data table B =
      ((migrate_data_batches table B).map List.length).sum := by
  refine ⟨?_, ?_, ?_⟩
  · exact migrateLoopFuel_eq table B totalRows hB (totalRows + 1) 0 (by omega)
  · simpa using migrateLoopCount_eq table B totalRows 0 0
  · rw [migrate_data, migrate_data_batches]
    simpa using migrateLoopCount_eq table B table.length 0 0

theorem claim_c10_termination_count_witness :
    migrateLoopFuel 6 [1, 2, 3, 4, 5] 2 5 0 =
      some (migrateLoop [1, 2, 3, 4, 5] 2 5 0) ∧
    migrateLoopCount [1, 2, 3, 4, 5] 2 5 0 0 =
      ((migrateLoop [1, 2, 3, 4, 5] 2 5 0).map List.length).sum ∧
    migrate_data [1, 2, 3, 4, 5] 2 =
      ((migrate_data_batches [1, 2, 3, 4, 5] 2).map List.length).sum :=
  claim_c10_termination_count [1, 2, 3, 4, 5] 2 5 (by decide)

end FloatChat
